import Mathlib

/-!
Verification of the billing ledger and aggregation engine of the zalegal
repository.  The definitions below are a shallow embedding of the
TypeScript source: dates are modelled at day granularity as day counts
since the Unix epoch, JavaScript numbers as `Int` with `Option Int`
standing for `NaN`, and the realtime store's partial-update writes as
explicit payload records merged field by field into a stored document.
-/

namespace ZaLegal

/-! ### Calendar arithmetic

Day counts since 1970-01-01, with conversions to and from civil
(year, month, day) triples following the standard proleptic-Gregorian
algorithms.  These model the calendar behaviour of the JavaScript `Date`
values the source manipulates, at day granularity. -/

/-- Day count since the Unix epoch of the civil date `(y, m, d)`;
`m` is 1-indexed and `d` may lie outside `1..daysInMonth`, in which case
the result rolls over exactly as JavaScript `Date` does. -/
def daysFromCivil (y m d : Int) : Int :=
  let y2 := if m ≤ 2 then y - 1 else y
  let era := y2.ediv 400
  let yoe := y2 - era * 400
  let mp := if 2 < m then m - 3 else m + 9
  let doy := (153 * mp + 2).ediv 5 + (d - 1)
  let doe := yoe * 365 + yoe.ediv 4 - yoe.ediv 100 + doy
  era * 146097 + doe - 719468

/-- Civil date `(year, month, day)` (month 1-indexed) of a day count. -/
def civilFromDays (z : Int) : Int × Int × Int :=
  let z2 := z + 719468
  let era := z2.ediv 146097
  let doe := z2 - era * 146097
  let yoe := (doe - doe.ediv 1460 + doe.ediv 36524 - doe.ediv 146096).ediv 365
  let y := yoe + era * 400
  let doy := doe - (365 * yoe + yoe.ediv 4 - yoe.ediv 100)
  let mp := (5 * doy + 2).ediv 153
  let d := doy - (153 * mp + 2).ediv 5 + 1
  let m := if mp < 10 then mp + 3 else mp - 9
  (if m ≤ 2 then y + 1 else y, m, d)

/-- Year component of a day count. -/
def yearOf (z : Int) : Int := (civilFromDays z).1

/-- Month component (1-indexed) of a day count. -/
def monthOf (z : Int) : Int := (civilFromDays z).2.1

/-- Day-of-month component of a day count. -/
def dayOf (z : Int) : Int := (civilFromDays z).2.2

/-- Day of the week of a day count, as JavaScript `getDay()`:
0 = Sunday, ..., 6 = Saturday (1970-01-01 was a Thursday). -/
def weekdayOf (z : Int) : Int := (z + 4).emod 7

/-- Gregorian leap-year test. -/
def isLeap (y : Int) : Bool := y.emod 4 = 0 ∧ (y.emod 100 ≠ 0 ∨ y.emod 400 = 0)

/-- Number of days in month `m` (1-indexed) of year `y`. -/
def daysInMonth (y m : Int) : Int :=
  if m = 2 then (if isLeap y then 29 else 28)
  else if m = 4 ∨ m = 6 ∨ m = 9 ∨ m = 11 then 30
  else 31

/-- Day count produced by `new Date(year, month0, day)` at day
granularity: the two-digit-year rule maps `0..99` to `1900..1999`, and
out-of-range month (0-indexed) and day arguments roll over. -/
def newDateDays (y m0 d : Int) : Int :=
  let yf := if 0 ≤ y ∧ y ≤ 99 then y + 1900 else y
  daysFromCivil (yf + m0.ediv 12) (m0.emod 12 + 1) d

/-! ### JavaScript-style string-to-number parsing -/

/-- Numeric value of the digit list `cs` read in base 10. -/
def natOfDigits (cs : List Char) : Nat :=
  cs.foldl (fun n c => 10 * n + (c.toNat - 48)) 0

/-- Model of JavaScript `Number(s)` on the plain strings the app
manipulates: the empty string converts to `0`, an optionally negated
digit string to its value, and anything else to `NaN` (`none`). -/
def jsNumberStr (s : String) : Option Int :=
  let cs := s.toList
  if cs.isEmpty then some 0
  else if cs.all Char.isDigit then some (natOfDigits cs)
  else
    match cs with
    | '-' :: rest =>
        if !rest.isEmpty && rest.all Char.isDigit then some (-(natOfDigits rest : Int))
        else none
    | _ => none

/-- Split a character list on `-` and `/`, keeping empty segments, as
JavaScript `String.split(/[-\x2f]/)` does. -/
def splitSepsAux : List Char → List (List Char)
  | [] => [[]]
  | c :: rest =>
    let r := splitSepsAux rest
    if c = '-' ∨ c = '/' then [] :: r
    else
      match r with
      | [] => [[c]]
      | g :: gs => (c :: g) :: gs

/-- Split a string on `-` and `/` separators. -/
def splitSeps (s : String) : List String :=
  (splitSepsAux s.toList).map fun cs => String.mk cs

/-- Model of the date-fns `parseISO` call restricted to the full
`YYYY-MM-DD` date-only form the stored case dates use: exactly four
digits, dash, two digits, dash, two digits, with the month and day in
calendar range; every other string is rejected (date-fns also rejects
`15-03-2024`, whose leading part is not a four-digit year). -/
def parseISOday (s : String) : Option Int :=
  match s.toList with
  | [y1, y2, y3, y4, '-', m1, m2, '-', d1, d2] =>
    if [y1, y2, y3, y4, m1, m2, d1, d2].all Char.isDigit then
      let y : Int := natOfDigits [y1, y2, y3, y4]
      let m : Int := natOfDigits [m1, m2]
      let d : Int := natOfDigits [d1, d2]
      if 1 ≤ m ∧ m ≤ 12 ∧ 1 ≤ d ∧ d ≤ daysInMonth y m then some (daysFromCivil y m d)
      else none
    else none
  | _ => none

/-- The `parseDate` helper of `BillAnalytics.tsx` (and `Dashboard.tsx`),
at day granularity: an empty string is falsy and yields `null`; an ISO
parse is attempted first; otherwise the string is split on `-` or `/`
into exactly three parts read as `(day, month, year)` with the month
converted to the 0-indexed form `new Date` expects; a part that is not
numeric makes the constructed date invalid, which yields `null`. -/
def parseDate (s : String) : Option Int :=
  if s = "" then none
  else
    match parseISOday s with
    | some d => some d
    | none =>
      match splitSeps s with
      | [ds, ms, ys] =>
        match jsNumberStr ys, jsNumberStr ms, jsNumberStr ds with
        | some y, some m, some d => some (newDateDays y (m - 1) d)
        | _, _, _ => none
      | _ => none

/-! ### JavaScript value model for amount fields

Stored documents are untyped; an `amount` field may hold a number, a
string (the transient editable form), or be absent.  `JSVal.num none`
models `NaN`. -/

/-- An untyped JavaScript value as it occurs in amount fields. -/
inductive JSVal where
  | undef : JSVal
  | num : Option Int → JSVal
  | str : String → JSVal
deriving DecidableEq

/-- JavaScript truthiness of a `JSVal` (`undefined`, `0`, `NaN` and the
empty string are falsy). -/
def truthy : JSVal → Bool
  | JSVal.undef => false
  | JSVal.num none => false
  | JSVal.num (some n) => n ≠ 0
  | JSVal.str s => s ≠ ""

/-- JavaScript `ToString` on the values above. -/
def jsToString : JSVal → String
  | JSVal.undef => "undefined"
  | JSVal.num none => "NaN"
  | JSVal.num (some n) => toString n
  | JSVal.str s => s

/-- JavaScript `ToNumber` on the values above (`undefined` converts to
`NaN`, strings through `Number(s)`). -/
def toNumber : JSVal → Option Int
  | JSVal.undef => none
  | JSVal.num v => v
  | JSVal.str s => jsNumberStr s

/-- JavaScript `+`: if either operand is a string the result is the
concatenation of the string forms, otherwise numeric addition with `NaN`
propagation. -/
def jsAdd (a b : JSVal) : JSVal :=
  match a, b with
  | JSVal.str s, v => JSVal.str (s ++ jsToString v)
  | v, JSVal.str s => JSVal.str (jsToString v ++ s)
  | v, w =>
    match toNumber v, toNumber w with
    | some x, some y => JSVal.num (some (x + y))
    | _, _ => JSVal.num none

/-- The coercion `Number(p.amount || 0)` applied to each particular in
`handleUpdateCase`: a falsy amount (missing, `0`, `NaN`, empty string)
becomes `0`, and the rest goes through `Number`, so a non-numeric
string still yields `NaN`. -/
def sanitizeAmount (a : JSVal) : Option Int :=
  toNumber (if truthy a then a else JSVal.num (some 0))

/-- The reduce `(sum, p) => sum + p.amount` with initial value `0`. -/
def reduceAmounts (l : List JSVal) : JSVal :=
  l.foldl jsAdd (JSVal.num (some 0))

/-! ### Data model: stored documents, derived case views -/

/-- A charge line as stored; the amount is untyped because edit forms
write it back as a sanitized number while legacy rows may hold
anything. -/
structure Particular where
  type : String
  customType : String
  amount : JSVal
  appearanceDate : Option String
deriving DecidableEq

/-- A payment event; amounts recorded through `handleSavePayment` are
validated numbers, matching the `Payment` interface. -/
structure Payment where
  amount : Int
  method : String
  date : String
deriving DecidableEq

/-- A raw case document in the realtime store.  `none` on an optional
field models the field being absent (for `totalAmount`, absent or
`NaN`, which every consumer coerces identically via `|| 0`).  The
`paidAmount` and `remainingAmount` fields are stored copies that
`handleSavePayment` writes; no reader consumes them. -/
structure StoredCase where
  billNumber : String
  caseNumber : String
  caseDescription : String
  date : String
  totalAmount : Option Int
  particulars : Option (List Particular)
  payments : Option (List Payment)
  paidAmount : Option Int
  remainingAmount : Option Int
deriving DecidableEq

/-- A case as assembled by the `onValue` ingestion (`CaseData` with the
derived fields filled in).  The spread `{ id, ...caseData, payments,
paidAmount, remainingAmount }` keeps the stored `totalAmount` raw and
overrides any stored `paidAmount`/`remainingAmount` with the
recomputed values. -/
structure CaseView where
  billNumber : String
  caseNumber : String
  caseDescription : String
  date : String
  totalAmount : Option Int
  particulars : List Particular
  payments : List Payment
  paidAmount : Int
  remainingAmount : Int
deriving DecidableEq

/-- The reduce `payments.reduce((sum, p) => sum + p.amount, 0)` over
well-typed payments. -/
def paymentsSum (ps : List Payment) : Int :=
  ps.foldl (fun sum p => sum + p.amount) 0

/-- The read-side derivation performed in every `onValue` subscription
(`BillAnalytics`, `BillList`, `Dashboard`): default `payments` and
`particulars` to `[]`, recompute `paidAmount` as the sum of payment
amounts, coerce the stored `totalAmount` with `|| 0`, and derive
`remainingAmount = totalAmount - paidAmount`; the stored
`paidAmount`/`remainingAmount` fields are overridden. -/
def deriveCase (c : StoredCase) : CaseView :=
  let payments := c.payments.getD []
  let paidAmount := paymentsSum payments
  let totalAmount := c.totalAmount.getD 0
  { billNumber := c.billNumber
    caseNumber := c.caseNumber
    caseDescription := c.caseDescription
    date := c.date
    totalAmount := c.totalAmount
    particulars := c.particulars.getD []
    payments := payments
    paidAmount := paidAmount
    remainingAmount := totalAmount - paidAmount }

/-! ### Ledger mutation API

Firebase `update` merges the supplied fields into the stored document;
a payload is therefore a partial document, `none` marking a field that
the call does not write. -/

/-- A partial document passed to the store's merge-update operation.
For `totalAmount` and `remainingAmount` the written value itself can be
`NaN`, hence the nested option. -/
structure Payload where
  billNumber : Option String
  caseNumber : Option String
  caseDescription : Option String
  date : Option String
  totalAmount : Option (Option Int)
  particulars : Option (List Particular)
  payments : Option (List Payment)
  paidAmount : Option Int
  remainingAmount : Option (Option Int)
deriving DecidableEq

/-- Merge a payload into a stored document, field by field (the store's
partial-update semantics); a written `NaN` is collapsed to the absent
reading, which every consumer treats identically. -/
def applyPayload (doc : StoredCase) (p : Payload) : StoredCase :=
  { billNumber := p.billNumber.getD doc.billNumber
    caseNumber := p.caseNumber.getD doc.caseNumber
    caseDescription := p.caseDescription.getD doc.caseDescription
    date := p.date.getD doc.date
    totalAmount := p.totalAmount.getD doc.totalAmount
    particulars := (p.particulars.map some).getD doc.particulars
    payments := (p.payments.map some).getD doc.payments
    paidAmount := (p.paidAmount.map some).getD doc.paidAmount
    remainingAmount := p.remainingAmount.getD doc.remainingAmount }

/-- The edit-dialog state (`editFormData`): a copy of the selected case
with identifiers, date and the particulars sequence freely edited
(particular amounts may be strings at this point). -/
structure EditForm where
  billNumber : String
  caseNumber : String
  caseDescription : String
  date : String
  particulars : List Particular
deriving DecidableEq

/-- The `sanitizedParticulars` map of `handleUpdateCase`: each amount
becomes `Number(p.amount || 0)`. -/
def sanitizeParticulars (ps : List Particular) : List Particular :=
  ps.map fun p => { p with amount := JSVal.num (sanitizeAmount p.amount) }

/-- Numeric reading of a `JSVal` known to be a number (the sanitized
reduce only produces numbers). -/
def numPart : JSVal → Option Int
  | JSVal.num v => v
  | _ => none

/-- The `dataToSave` payload of `handleUpdateCase` (second component):
the edited fields and the sanitized particulars with the recomputed
`totalAmount`; `id`, `paidAmount` and `remainingAmount` are deleted
before the write.  The payments sequence rides along from the edit
copy, which was taken from the current view. -/
def updateCasePayload (e : EditForm) (pays : List Payment) : Payload :=
  let sp := sanitizeParticulars e.particulars
  let newTotalAmount := numPart (reduceAmounts (sp.map fun p => p.amount))
  { billNumber := some e.billNumber
    caseNumber := some e.caseNumber
    caseDescription := some e.caseDescription
    date := some e.date
    totalAmount := some newTotalAmount
    particulars := some sp
    payments := some pays
    paidAmount := none
    remainingAmount := none }

/-- The update payload of `handleSavePayment`: the appended payments
sequence plus explicitly written `paidAmount` and `remainingAmount`
(`selectedCase.totalAmount - newPaidAmount`, which is `NaN` when the
stored total is absent). -/
def savePaymentPayload (view : CaseView) (amount : Int) (method dateStr : String) : Payload :=
  let updatedPayments := view.payments ++ [⟨amount, method, dateStr⟩]
  let newPaidAmount := paymentsSum updatedPayments
  { billNumber := none
    caseNumber := none
    caseDescription := none
    date := none
    totalAmount := none
    particulars := none
    payments := some updatedPayments
    paidAmount := some newPaidAmount
    remainingAmount := some (view.totalAmount.map fun t => t - newPaidAmount) }

/-- The validation and write of `handleSavePayment`: an empty amount,
method or date string is rejected up front, then the amount is
converted with `Number` and rejected when `NaN` or not positive; only
then is the payload built.  `none` means the handler returned without
attempting a write. -/
def handleSavePayment (view : CaseView) (amountStr method dateStr : String) : Option Payload :=
  if amountStr = "" ∨ method = "" ∨ dateStr = "" then none
  else
    match jsNumberStr amountStr with
    | none => none
    | some a => if a ≤ 0 then none else some (savePaymentPayload view a method dateStr)

/-- One ledger mutation: a particulars/identifier edit or a payment
append. -/
inductive Mutation where
  | edit : EditForm → Mutation
  | pay : String → String → String → Mutation
deriving DecidableEq

/-- Apply one mutation to the stored document, going through the same
payload the component sends to the store; a failed payment validation
writes nothing. -/
def stepMutation (doc : StoredCase) (m : Mutation) : StoredCase :=
  match m with
  | Mutation.edit e => applyPayload doc (updateCasePayload e (deriveCase doc).payments)
  | Mutation.pay a mth dt =>
    match handleSavePayment (deriveCase doc) a mth dt with
    | some p => applyPayload doc p
    | none => doc

/-! ### Period filter and aggregate statistics -/

/-- The five time windows of the analytics view. -/
inductive TimeFilter where
  | today
  | week
  | month
  | year
  | all
deriving DecidableEq

/-- `startOfWeek` with the date-fns default week start (Sunday). -/
def startOfWeekD (z : Int) : Int := z - weekdayOf z

/-- Membership of the day `d` in the window `f` anchored at `now`, as
tested inside the period filter (`isToday`, `isWithinInterval` with
`startOfWeek`/`endOfWeek`, `startOfMonth`/`endOfMonth`,
`startOfYear`/`endOfYear`); the trailing `return false` of the filter
body is the `all` branch, which the filter never reaches. -/
def inWindow (f : TimeFilter) (now d : Int) : Bool :=
  match f with
  | TimeFilter.today => d = now
  | TimeFilter.week => startOfWeekD now ≤ d ∧ d ≤ startOfWeekD now + 6
  | TimeFilter.month => yearOf d = yearOf now ∧ monthOf d = monthOf now
  | TimeFilter.year => yearOf d = yearOf now
  | TimeFilter.all => false

/-- The period filter of `filteredData`: under `all` no filtering
occurs; otherwise a case is kept exactly when its date parses and the
parsed day falls in the window. -/
def filterCases (f : TimeFilter) (now : Int) (cases : List CaseView) : List CaseView :=
  if f = TimeFilter.all then cases
  else
    cases.filter fun c =>
      match parseDate c.date with
      | none => false
      | some d => inWindow f now d

/-- The aggregate statistics record of `filteredData`. -/
structure Stats where
  totalBilled : Int
  totalCases : Nat
  totalPaymentsReceived : Int
  totalRemainingAmount : Int
deriving DecidableEq

/-- `casesForPeriod.reduce((sum, c) => sum + (c.totalAmount || 0), 0)`. -/
def totalBilledOf (l : List CaseView) : Int :=
  l.foldl (fun sum c => sum + c.totalAmount.getD 0) 0

/-- `casesForPeriod.reduce((sum, c) => sum + (c.paidAmount || 0), 0)`;
the derived `paidAmount` is always a number, on which `|| 0` is the
identity. -/
def totalPaidOf (l : List CaseView) : Int :=
  l.foldl (fun sum c => sum + c.paidAmount) 0

/-- The stats computed by `filteredData` for a window:
`totalRemaining` is recomputed as filtered billed minus filtered
paid. -/
def statsOf (f : TimeFilter) (now : Int) (cases : List CaseView) : Stats :=
  let casesForPeriod := filterCases f now cases
  { totalBilled := totalBilledOf casesForPeriod
    totalCases := casesForPeriod.length
    totalPaymentsReceived := totalPaidOf casesForPeriod
    totalRemainingAmount := totalBilledOf casesForPeriod - totalPaidOf casesForPeriod }

/-- Sort key relation of the display sort at the end of `filteredData`:
descending by parsed date, an unparseable date counting as epoch 0. -/
def byDateDesc (a b : CaseView) : Prop :=
  ((parseDate b.date).getD 0 : Int) ≤ (parseDate a.date).getD 0

instance : DecidableRel byDateDesc := fun a b =>
  inferInstanceAs (Decidable (((parseDate b.date).getD 0 : Int) ≤ (parseDate a.date).getD 0))

/-- The filtered case list as `filteredData` returns it: filtered, then
sorted by date descending (modelled by a stable sort with the same
comparator). -/
def filteredCasesOf (f : TimeFilter) (now : Int) (cases : List CaseView) : List CaseView :=
  List.insertionSort byDateDesc (filterCases f now cases)

/-! ### Chart bucketing -/

/-- Month labels as date-fns `format(d, "MMM")` produces them; the
month index of any valid day count is in `1..12`, and the catch-all
arm keeps the function total. -/
def monthLabel (m : Int) : String :=
  if m = 1 then "Jan" else if m = 2 then "Feb" else if m = 3 then "Mar"
  else if m = 4 then "Apr" else if m = 5 then "May" else if m = 6 then "Jun"
  else if m = 7 then "Jul" else if m = 8 then "Aug" else if m = 9 then "Sep"
  else if m = 10 then "Oct" else if m = 11 then "Nov" else "Dec"

/-- Day-of-week labels as date-fns `format(d, "EEE")` produces them
(`weekdayOf` yields 0 for Sunday). -/
def dayLabel (w : Int) : String :=
  if w = 0 then "Sun" else if w = 1 then "Mon" else if w = 2 then "Tue"
  else if w = 3 then "Wed" else if w = 4 then "Thu" else if w = 5 then "Fri"
  else "Sat"

/-- Two-digit zero-padded rendering of a day of month. -/
def pad2 (d : Int) : String :=
  if 0 ≤ d ∧ d < 10 then "0" ++ toString d else toString d

/-- The grouping key of `chartData` for each window.  Parsed dates sit
at local midnight, so the hour key of the `today` window is always
`"00:00"`. -/
def bucketKey (f : TimeFilter) (d : Int) : String :=
  match f with
  | TimeFilter.today => "00:00"
  | TimeFilter.week => dayLabel (weekdayOf d)
  | TimeFilter.month => pad2 (dayOf d) ++ " " ++ monthLabel (monthOf d)
  | TimeFilter.year => monthLabel (monthOf d)
  | TimeFilter.all => monthLabel (monthOf d) ++ " " ++ toString (yearOf d)

/-- One accumulating bucket of the chart `Map`. -/
structure BucketAcc where
  billed : Int
  paid : Int
  dateForSort : Int
deriving DecidableEq

/-- One emitted chart point. -/
structure ChartPoint where
  name : String
  billed : Int
  paid : Int
  dateForSort : Int
deriving DecidableEq

/-- `dataMap.get(key) || {billed: 0, paid: 0, dateForSort}` followed by
`dataMap.set(key, ...)` on an insertion-ordered map: an existing entry
is updated in place keeping its position and its first retained
representative instant, a new entry is appended with the current
instant. -/
def bumpBucket (mp : List (String × BucketAcc)) (k : String) (b p sd : Int) :
    List (String × BucketAcc) :=
  match mp with
  | [] => [(k, ⟨b, p, sd⟩)]
  | (k2, v2) :: rest =>
    if k2 = k then (k2, ⟨v2.billed + b, v2.paid + p, v2.dateForSort⟩) :: rest
    else (k2, v2) :: bumpBucket rest k b p sd

/-- The accumulation pass of `chartData`: a case whose date fails to
parse is skipped (`if (!caseDate) return`), every other case adds its
billed and paid amounts to the bucket of its key. -/
def chartFold (f : TimeFilter) (mp : List (String × BucketAcc)) (cases : List CaseView) :
    List (String × BucketAcc) :=
  cases.foldl
    (fun mp c =>
      match parseDate c.date with
      | none => mp
      | some d => bumpBucket mp (bucketKey f d) (c.totalAmount.getD 0) c.paidAmount d)
    mp

/-- `dayOrder` of the week re-sort. -/
def dayOrder : List String := ["Mon", "Tue", "Wed", "Thu", "Fri", "Sat", "Sun"]

/-- `monthOrder` of the year re-sort. -/
def monthOrder : List String :=
  ["Jan", "Feb", "Mar", "Apr", "May", "Jun", "Jul", "Aug", "Sep", "Oct", "Nov", "Dec"]

/-- JavaScript `Array.indexOf` on a list of labels. -/
def idxOf (l : List String) (s : String) : Int :=
  match l.findIdx? (· = s) with
  | some i => (i : Int)
  | none => -1

/-- Comparator of the first chart sort: ascending by the representative
instant (`dateForSort`, always present on every entry). -/
def bySortDate (a b : ChartPoint) : Prop := a.dateForSort ≤ b.dateForSort

instance : DecidableRel bySortDate := fun a b =>
  inferInstanceAs (Decidable (a.dateForSort ≤ b.dateForSort))

/-- Comparator of the week re-sort: by position in `dayOrder`. -/
def byDayOrder (a b : ChartPoint) : Prop := idxOf dayOrder a.name ≤ idxOf dayOrder b.name

instance : DecidableRel byDayOrder := fun a b =>
  inferInstanceAs (Decidable (idxOf dayOrder a.name ≤ idxOf dayOrder b.name))

instance : IsTotal ChartPoint byDayOrder := ⟨fun _ _ => Int.le_total _ _⟩

instance : IsTrans ChartPoint byDayOrder := ⟨fun _ _ _ h h2 => le_trans h h2⟩

/-- Comparator of the year re-sort: by position in `monthOrder`. -/
def byMonthOrder (a b : ChartPoint) : Prop := idxOf monthOrder a.name ≤ idxOf monthOrder b.name

instance : DecidableRel byMonthOrder := fun a b =>
  inferInstanceAs (Decidable (idxOf monthOrder a.name ≤ idxOf monthOrder b.name))

instance : IsTotal ChartPoint byMonthOrder := ⟨fun _ _ => Int.le_total _ _⟩

instance : IsTrans ChartPoint byMonthOrder := ⟨fun _ _ _ h h2 => le_trans h h2⟩

/-- The full `chartData` computation for a window: accumulate buckets
over the filtered (and date-sorted) cases, turn the map into an array,
sort it by representative instant, then re-sort the week window by
`dayOrder` and the year window by `monthOrder` (stable sorts, as the
runtime's `Array.sort` is). -/
def chartData (f : TimeFilter) (now : Int) (cases : List CaseView) : List ChartPoint :=
  let mp := chartFold f [] (filteredCasesOf f now cases)
  let arr := mp.map fun kv => ChartPoint.mk kv.1 kv.2.billed kv.2.paid kv.2.dateForSort
  let arr := List.insertionSort bySortDate arr
  if f = TimeFilter.week then List.insertionSort byDayOrder arr
  else if f = TimeFilter.year then List.insertionSort byMonthOrder arr
  else arr

/-- Sum of the billed field over emitted chart points. -/
def billedSum (l : List ChartPoint) : Int := (l.map ChartPoint.billed).sum

/-- Sum of the billed field over map entries. -/
def mapBilledSum (mp : List (String × BucketAcc)) : Int :=
  (mp.map fun kv => kv.2.billed).sum

/-! ### Raw (untyped) payment ingestion and the creation-form schema -/

/-- A payment row exactly as the store may hold it, with an untyped
amount field. -/
structure RawPayment where
  amount : JSVal
  method : String
  date : String
deriving DecidableEq

/-- The ingestion reduce `payments.reduce((sum, p) => sum + p.amount, 0)`
over raw rows: no coercion is applied to `p.amount`. -/
def paidAmountRaw (ps : List RawPayment) : JSVal :=
  ps.foldl (fun sum p => jsAdd sum p.amount) (JSVal.num (some 0))

/-- The fail-soft sum claim C5 describes: every non-numeric or missing
amount is treated as `0`. -/
def claimFailSoftSum (l : List JSVal) : Int :=
  (l.map fun a => (toNumber a).getD 0).sum

/-- One particular line of the creation form (`particularSchema`):
`type` is a required string, `amount` a number (`none` models `NaN`
from an empty numeric input) that must be at least `0.01`, and
`appearanceDate` is optional and nullable. -/
structure ParticularForm where
  type : String
  amount : Option ℚ
  appearanceDate : Option (Option Int)
deriving DecidableEq

/-- The creation form data validated by `caseSchema`. -/
structure CaseForm where
  billNumber : String
  date : Option Int
  caseNumber : String
  caseDescription : String
  particulars : List ParticularForm
deriving DecidableEq

/-- `particularSchema`: `type` non-empty and
`amount: z.number().min(0.01)`. -/
def particularAccepted (p : ParticularForm) : Bool :=
  (p.type ≠ "") &&
    match p.amount with
    | some q => decide (mkRat 1 100 ≤ q)
    | none => false

/-- `caseSchema`: all identifier strings non-empty, the date present,
and at least one particular, each valid per `particularSchema`. -/
def caseSchemaAccepts (f : CaseForm) : Bool :=
  (f.billNumber ≠ "") && f.date.isSome && (f.caseNumber ≠ "") &&
    (f.caseDescription ≠ "") && (!f.particulars.isEmpty) &&
    f.particulars.all particularAccepted

/-- The validity condition exactly as claim C9 states it: required
identifiers non-empty, particulars non-empty, and every particular
amount a valid non-negative number (so `0` accepted). -/
def claimNineAccepts (f : CaseForm) : Bool :=
  (f.billNumber ≠ "") && (f.caseNumber ≠ "") && (f.caseDescription ≠ "") &&
    (!f.particulars.isEmpty) &&
    f.particulars.all fun p =>
      match p.amount with
      | some q => decide ((0 : ℚ) ≤ q)
      | none => false

/-! ### Helper lemmas -/

/-- Folding `+` of a mapped value over a list adds the mapped sum to
the initial accumulator. -/
theorem foldl_add_map {α : Type} (g : α → Int) :
    ∀ (l : List α) (i : Int), l.foldl (fun s a => s + g a) i = i + (l.map g).sum := by
  intro l
  induction l with
  | nil => simp
  | cons a l ih => intro i; simp [ih, add_assoc]

/-- Appending one payment adds its amount to the running sum. -/
theorem paymentsSum_append (ps : List Payment) (p : Payment) :
    paymentsSum (ps ++ [p]) = paymentsSum ps + p.amount := by
  simp [paymentsSum, List.foldl_append]

/-- Summing number values with `jsAdd` is exact addition. -/
theorem reduceNums (ns : List Int) :
    ∀ i : Int, (ns.map fun n => JSVal.num (some n)).foldl jsAdd (JSVal.num (some i))
      = JSVal.num (some (i + ns.sum)) := by
  induction ns with
  | nil => intro i; simp
  | cons n ns ih => intro i; simp [jsAdd, toNumber, ih, add_assoc]

/-- `NaN` propagates through `jsAdd` over number values. -/
theorem reduceNaN (ns : List Int) :
    (ns.map fun n => JSVal.num (some n)).foldl jsAdd (JSVal.num none) = JSVal.num none := by
  induction ns with
  | nil => rfl
  | cons n ns ih => simpa [jsAdd, toNumber] using ih

/-- `particularSchema` acceptance unfolded to a proposition. -/
theorem particularAccepted_iff (p : ParticularForm) :
    particularAccepted p = true ↔
      p.type ≠ "" ∧ ∃ q, p.amount = some q ∧ mkRat 1 100 ≤ q := by
  cases h : p.amount <;> simp [particularAccepted, h]

/-! ### Claim C1 -/

/-- C1: for every case produced by the read-side derivation, after any
sequence of mutations (particulars edits, payment appends) applied
through the store, the derived amounts reconcile:
`totalAmount = remainingAmount + paidAmount` (with the ingestion's
`|| 0` coercion of the stored total), where `paidAmount` is the sum of
the case's payment amounts. -/
theorem c1_reconciliation (doc : StoredCase) (ms : List Mutation) :
    (deriveCase (ms.foldl stepMutation doc)).totalAmount.getD 0
        = (deriveCase (ms.foldl stepMutation doc)).remainingAmount
          + (deriveCase (ms.foldl stepMutation doc)).paidAmount
    ∧ (deriveCase (ms.foldl stepMutation doc)).paidAmount
        = paymentsSum (deriveCase (ms.foldl stepMutation doc)).payments := by
  constructor
  · simp [deriveCase]
  · rfl

/-! ### Claim C3 -/

/-- C3: the date normalizer maps `"2024-03-15"`, `"15-03-2024"` and
`"15/03/2024"` to the same calendar date, 15 March 2024 (ISO parse
first, then a day-month-year split with the month made 0-indexed), and
maps `"not-a-date"` to the invalid outcome `none` rather than
throwing. -/
theorem c3_dateParseRobustness :
    parseDate "2024-03-15" = some (daysFromCivil 2024 3 15)
    ∧ parseDate "15-03-2024" = some (daysFromCivil 2024 3 15)
    ∧ parseDate "15/03/2024" = some (daysFromCivil 2024 3 15)
    ∧ civilFromDays (daysFromCivil 2024 3 15) = (2024, 3, 15)
    ∧ parseDate "not-a-date" = none := by
  exact ⟨by decide, by decide, by decide, by decide, by decide⟩

/-! ### Claim C6 -/

/-- Concrete selected case used to exhibit the payment write. -/
def sampleViewSix : CaseView :=
  ⟨"B1", "C1", "desc", "2024-06-10", some 5500, [], [], 0, 5500⟩

/-- Concrete stored document behind `sampleViewSix`. -/
def sampleDocSix : StoredCase :=
  ⟨"B1", "C1", "desc", "2024-06-10", some 5500, some [], some [], none, none⟩

/-- C6 counterexample: `handleSavePayment` does write the derived
fields — its update payload carries `paidAmount` and `remainingAmount`,
and after the merge the stored document holds them. -/
theorem c6_counterexample :
    (handleSavePayment sampleViewSix "2000" "Cash" "2024-06-12").map Payload.paidAmount
        = some (some 2000)
    ∧ (handleSavePayment sampleViewSix "2000" "Cash" "2024-06-12").map Payload.remainingAmount
        = some (some (some 3500))
    ∧ (stepMutation sampleDocSix (Mutation.pay "2000" "Cash" "2024-06-12")).paidAmount
        = some 2000 := by
  exact ⟨by decide, by decide, by decide⟩

/-- C6 amended: the particulars-edit payload strips `paidAmount` and
`remainingAmount` before writing; `handleSavePayment` does write both
to the stored document, but every read-side consumer recomputes them
from the stored payments and ignores the stored copies, so they are
never consumed as source of truth. -/
theorem c6_derivedNotSourceOfTruth (e : EditForm) (pays : List Payment) (doc : StoredCase)
    (v w : Option Int) (amount : Int) (method dateStr : String) (view : CaseView) :
    (updateCasePayload e pays).paidAmount = none
    ∧ (updateCasePayload e pays).remainingAmount = none
    ∧ (savePaymentPayload view amount method dateStr).paidAmount
        = some (paymentsSum (view.payments ++ [⟨amount, method, dateStr⟩]))
    ∧ (deriveCase doc).paidAmount = paymentsSum (doc.payments.getD [])
    ∧ deriveCase { doc with paidAmount := v, remainingAmount := w } = deriveCase doc := by
  exact ⟨rfl, rfl, rfl, rfl, rfl⟩

/-! ### Claim C8 -/

/-- C8: `handleSavePayment` fails (returns without attempting a write,
leaving the stored case unchanged) exactly when the amount string is
empty, non-numeric or not positive, or the method or date is missing;
otherwise it writes exactly one appended payment and the recomputed
`paidAmount` and `remainingAmount`. -/
theorem c8_recordPaymentValidation (view : CaseView) (a m d : String) :
    (handleSavePayment view a m d = none ↔
        a = "" ∨ m = "" ∨ d = "" ∨ jsNumberStr a = none
          ∨ ∃ n, jsNumberStr a = some n ∧ n ≤ 0)
    ∧ (∀ doc : StoredCase, handleSavePayment (deriveCase doc) a m d = none →
        stepMutation doc (Mutation.pay a m d) = doc)
    ∧ (∀ n : Int, jsNumberStr a = some n → 0 < n → a ≠ "" → m ≠ "" → d ≠ "" →
        handleSavePayment view a m d = some (savePaymentPayload view n m d)
        ∧ (savePaymentPayload view n m d).payments = some (view.payments ++ [⟨n, m, d⟩])
        ∧ (savePaymentPayload view n m d).paidAmount
            = some (paymentsSum view.payments + n)
        ∧ (savePaymentPayload view n m d).remainingAmount
            = some (view.totalAmount.map fun t => t - (paymentsSum view.payments + n))) := by
  refine ⟨?_, ?_, ?_⟩
  · constructor
    · intro hnone
      unfold handleSavePayment at hnone
      by_cases h1 : a = "" ∨ m = "" ∨ d = ""
      · tauto
      · rw [if_neg h1] at hnone
        cases hn : jsNumberStr a with
        | none => exact Or.inr (Or.inr (Or.inr (Or.inl rfl)))
        | some n =>
          rw [hn] at hnone
          by_cases hle : n ≤ 0
          · exact Or.inr (Or.inr (Or.inr (Or.inr ⟨n, rfl, hle⟩)))
          · simp [hle] at hnone
    · intro hcond
      unfold handleSavePayment
      by_cases h1 : a = "" ∨ m = "" ∨ d = ""
      · rw [if_pos h1]
      · rw [if_neg h1]
        rcases hcond with h | h | h | h | ⟨k, hk, hk2⟩
        · exact absurd (Or.inl h) h1
        · exact absurd (Or.inr (Or.inl h)) h1
        · exact absurd (Or.inr (Or.inr h)) h1
        · rw [h]
        · rw [hk]
          simp [hk2]
  · intro doc hnone
    simp [stepMutation, hnone]
  · intro n hn hpos ha hm hd
    have h1 : ¬(a = "" ∨ m = "" ∨ d = "") := by tauto
    refine ⟨?_, rfl, ?_, ?_⟩
    · unfold handleSavePayment
      rw [if_neg h1, hn]
      simp [not_le.mpr hpos]
    · simp [savePaymentPayload, paymentsSum_append]
    · simp [savePaymentPayload, paymentsSum_append]

/-- Concrete selected case for the C8 witness. -/
def sampleViewEight : CaseView :=
  ⟨"B8", "C8", "d8", "2024-06-10", some 5500, [], [⟨1500, "Cash", "2024-06-01"⟩], 1500, 4000⟩

/-- C8 witness: the success branch evaluated on a concrete valid
payment. -/
theorem c8_recordPaymentValidation_witness :
    handleSavePayment sampleViewEight "2000" "Cash" "2024-06-12"
        = some (savePaymentPayload sampleViewEight 2000 "Cash" "2024-06-12")
    ∧ (savePaymentPayload sampleViewEight 2000 "Cash" "2024-06-12").paidAmount
        = some (paymentsSum sampleViewEight.payments + 2000) :=
  have h := (c8_recordPaymentValidation sampleViewEight "2000" "Cash" "2024-06-12").2.2 2000
    (by decide) (by decide) (by decide) (by decide) (by decide)
  ⟨h.1, h.2.2.1⟩

/-! ### Claim C10 -/

/-- A legacy document with payments but no stored `totalAmount`. -/
def legacyDoc : StoredCase :=
  ⟨"LB", "LC", "ld", "2023-01-01", none, none, some [⟨50, "Cash", "2024-06-12"⟩], none, none⟩

/-- C10: the read-side derivation takes `remainingAmount` from the
stored `totalAmount` field (defaulted to `0` when absent or falsy)
rather than recomputing it from the particulars: replacing the
particulars does not change it, the raw stored total is kept on the
derived record, and a legacy document with a 50 payment and no total
derives `remainingAmount = -50` without crashing. -/
theorem c10_storedTotalIsAuthority (doc : StoredCase) :
    (deriveCase doc).remainingAmount
        = doc.totalAmount.getD 0 - paymentsSum (doc.payments.getD [])
    ∧ (deriveCase doc).totalAmount = doc.totalAmount
    ∧ (∀ ps : Option (List Particular),
        (deriveCase { doc with particulars := ps }).remainingAmount
          = (deriveCase doc).remainingAmount)
    ∧ (deriveCase legacyDoc).remainingAmount = -50 := by
  exact ⟨rfl, rfl, fun ps => rfl, by decide⟩

/-! ### Claim C5 -/

/-- A payments list with one missing amount followed by a numeric one. -/
def badPayments : List RawPayment :=
  [⟨JSVal.undef, "Cash", "2024-06-12"⟩, ⟨JSVal.num (some 100), "Cash", "2024-06-13"⟩]

/-- C5 counterexample: the ingestion reduce applies no coercion, so a
payments list with one missing amount sums to `NaN`, not to the
fail-soft sum `100` the claim prescribes. -/
theorem c5_counterexample :
    paidAmountRaw badPayments = JSVal.num none
    ∧ claimFailSoftSum (badPayments.map RawPayment.amount) = 100
    ∧ paidAmountRaw badPayments
        ≠ JSVal.num (some (claimFailSoftSum (badPayments.map RawPayment.amount))) := by
  exact ⟨by decide, by decide, by decide⟩

/-- C5 amended: the two sums do not share one coercion rule.  The
particulars sum coerces each amount with `Number(amount || 0)` —
missing, `NaN`, zero or empty-string amounts become `0`, but a
non-numeric string still becomes `NaN` — and is exact on coercible
amounts; the payments sum applies no coercion at all: it is exact when
every amount is a number, and a single missing amount collapses the
whole `paidAmount` to `NaN`. -/
theorem c5_coercionAsymmetry (l : List RawPayment) (ns : List Int) (p0 : RawPayment)
    (e : EditForm) (pays : List Payment) (qs : List Int) (n : Int) :
    (l.map RawPayment.amount = ns.map (fun k => JSVal.num (some k)) →
        paidAmountRaw l = JSVal.num (some ns.sum))
    ∧ (p0.amount = JSVal.undef →
        l.map RawPayment.amount = ns.map (fun k => JSVal.num (some k)) →
        paidAmountRaw (p0 :: l) = JSVal.num none)
    ∧ sanitizeAmount JSVal.undef = some 0
    ∧ sanitizeAmount (JSVal.num none) = some 0
    ∧ sanitizeAmount (JSVal.str "") = some 0
    ∧ sanitizeAmount (JSVal.str "abc") = none
    ∧ sanitizeAmount (JSVal.num (some n)) = some n
    ∧ ((e.particulars.map fun p => sanitizeAmount p.amount) = qs.map some →
        (updateCasePayload e pays).totalAmount = some (some qs.sum)) := by
  have hbridge : ∀ (l2 : List RawPayment) (i : JSVal),
      l2.foldl (fun sum p => jsAdd sum p.amount) i = (l2.map RawPayment.amount).foldl jsAdd i := by
    intro l2 i
    rw [List.foldl_map]
  refine ⟨?_, ?_, rfl, rfl, rfl, rfl, ?_, ?_⟩
  · intro hl
    rw [paidAmountRaw, hbridge, hl, reduceNums]
    rw [zero_add]
  · intro hp0 hl
    rw [paidAmountRaw, List.foldl_cons, hp0]
    have hstep : jsAdd (JSVal.num (some 0)) JSVal.undef = JSVal.num none := rfl
    rw [hstep, hbridge, hl, reduceNaN]
  · by_cases h : n = 0 <;> simp [sanitizeAmount, truthy, toNumber, h]
  · intro hq
    unfold updateCasePayload
    have hm : (sanitizeParticulars e.particulars).map Particular.amount
        = qs.map fun k => JSVal.num (some k) := by
      rw [sanitizeParticulars, List.map_map]
      have : ((fun p : Particular => p.amount) ∘ fun p : Particular =>
          { p with amount := JSVal.num (sanitizeAmount p.amount) })
          = fun p : Particular => JSVal.num (sanitizeAmount p.amount) := rfl
      rw [this]
      have h2 : (fun p : Particular => JSVal.num (sanitizeAmount p.amount))
          = JSVal.num ∘ fun p : Particular => sanitizeAmount p.amount := rfl
      rw [h2, ← List.map_map, hq, List.map_map]
      rfl
    simp only [hm, reduceAmounts, reduceNums, zero_add, numPart]

/-- C5 witness: concrete instances of the exact numeric sum and of the
`NaN` collapse. -/
theorem c5_coercionAsymmetry_witness :
    paidAmountRaw [⟨JSVal.num (some 40), "Cash", "a"⟩, ⟨JSVal.num (some 2), "Online", "b"⟩]
        = JSVal.num (some ([40, 2] : List Int).sum)
    ∧ paidAmountRaw (⟨JSVal.undef, "Cash", "c"⟩ :: [⟨JSVal.num (some 40), "Cash", "a"⟩])
        = JSVal.num none :=
  have h := c5_coercionAsymmetry [⟨JSVal.num (some 40), "Cash", "a"⟩, ⟨JSVal.num (some 2), "Online", "b"⟩]
    [40, 2] ⟨JSVal.undef, "Cash", "c"⟩ ⟨"", "", "", "", []⟩ [] [] 0
  have h2 := c5_coercionAsymmetry [⟨JSVal.num (some 40), "Cash", "a"⟩] [40]
    ⟨JSVal.undef, "Cash", "c"⟩ ⟨"", "", "", "", []⟩ [] [] 0
  ⟨h.1 (by decide), h2.2.1 (by decide) (by decide)⟩

/-! ### Claim C9 -/

/-- A creation form whose single particular has amount `0`. -/
def zeroAmountForm : CaseForm :=
  ⟨"B-7", some 0, "C-7", "desc", [⟨"Filing", some 0, none⟩]⟩

/-- C9 counterexample: the schema rejects a particular amount of `0`
(`z.number().min(0.01)`), while the claim's condition accepts it as a
valid non-negative number. -/
theorem c9_counterexample :
    caseSchemaAccepts zeroAmountForm = false ∧ claimNineAccepts zeroAmountForm = true := by
  exact ⟨by decide, by decide⟩

/-- C9 amended: creation validation fails exactly when a required
identifier is empty, the date is missing, the particulars list is
empty, a particular type is empty, or a particular amount is not a
number of at least `0.01` — so `0` is rejected, not accepted. -/
theorem c9_creationValidation (f : CaseForm) :
    caseSchemaAccepts f = true ↔
      f.billNumber ≠ "" ∧ f.date ≠ none ∧ f.caseNumber ≠ "" ∧ f.caseDescription ≠ ""
        ∧ f.particulars ≠ []
        ∧ ∀ p ∈ f.particulars, p.type ≠ "" ∧ ∃ q, p.amount = some q ∧ mkRat 1 100 ≤ q := by
  simp [caseSchemaAccepts, List.all_eq_true, particularAccepted_iff,
    Option.isSome_iff_ne_none, and_assoc]

/-- A plainly valid creation form. -/
def goodForm : CaseForm := ⟨"B1", some 19000, "C1", "d", [⟨"Filing", some 5000, none⟩]⟩

/-- C9 witness: the amended validation evaluated on a concrete valid
form. -/
theorem c9_creationValidation_witness : caseSchemaAccepts goodForm = true :=
  (c9_creationValidation goodForm).mpr
    ⟨by decide, by decide, by decide, by decide, by decide, by
      intro p hp
      simp only [goodForm, List.mem_singleton] at hp
      subst hp
      exact ⟨by decide, 5000, rfl, by norm_num⟩⟩

/-! ### Aggregation lemmas -/

/-- Billed amount a case contributes to the chart accumulation: its
coerced total when its date parses, nothing otherwise. -/
def bucketContrib (c : CaseView) : Int :=
  match parseDate c.date with
  | none => 0
  | some _ => c.totalAmount.getD 0

/-- Billed amount of a case that the chart accumulation skips. -/
def unparsedContrib (c : CaseView) : Int :=
  match parseDate c.date with
  | none => c.totalAmount.getD 0
  | some _ => 0

/-- Total billed amount of the cases of a list whose dates do not
parse. -/
def unparsedBilled (l : List CaseView) : Int := (l.map unparsedContrib).sum

/-- The two contributions of a case add up to its coerced total. -/
theorem contrib_split (c : CaseView) :
    bucketContrib c + unparsedContrib c = c.totalAmount.getD 0 := by
  unfold bucketContrib unparsedContrib
  cases h : parseDate c.date <;> simp

/-- Summed version of `contrib_split`. -/
theorem sum_contrib_split (l : List CaseView) :
    (l.map bucketContrib).sum + unparsedBilled l
      = (l.map fun c => c.totalAmount.getD 0).sum := by
  unfold unparsedBilled
  induction l with
  | nil => simp
  | cons c l ih =>
    simp only [List.map_cons, List.sum_cons]
    have := contrib_split c
    omega

/-- `totalBilledOf` as a mapped sum. -/
theorem totalBilledOf_eq_sum (l : List CaseView) :
    totalBilledOf l = (l.map fun c => c.totalAmount.getD 0).sum := by
  unfold totalBilledOf
  rw [foldl_add_map]
  rw [zero_add]

/-- One bucket update adds the billed amount to the map total. -/
theorem bumpBucket_billedSum (k : String) (b p sd : Int) :
    ∀ mp : List (String × BucketAcc),
      mapBilledSum (bumpBucket mp k b p sd) = mapBilledSum mp + b := by
  intro mp
  induction mp with
  | nil => simp [bumpBucket, mapBilledSum]
  | cons kv rest ih =>
    obtain ⟨k2, v2⟩ := kv
    by_cases h : k2 = k
    · simp [bumpBucket, h, mapBilledSum]
      ring
    · simp [bumpBucket, h, mapBilledSum] at ih ⊢
      omega

/-- The chart accumulation adds exactly the parseable cases' billed
amounts to the map total. -/
theorem chartFold_billedSum (f : TimeFilter) :
    ∀ (cs : List CaseView) (mp : List (String × BucketAcc)),
      mapBilledSum (chartFold f mp cs) = mapBilledSum mp + (cs.map bucketContrib).sum := by
  intro cs
  induction cs with
  | nil => intro mp; simp [chartFold]
  | cons c cs ih =>
    intro mp
    simp only [chartFold, List.foldl_cons] at ih ⊢
    cases h : parseDate c.date with
    | none =>
      dsimp only
      rw [ih]
      simp [bucketContrib, h]
    | some d =>
      dsimp only
      rw [ih, bumpBucket_billedSum]
      simp [bucketContrib, h]
      ring


/-- A case with an unparseable date is skipped by the accumulation pass
wherever it sits in the input. -/
theorem chartFold_skip (f : TimeFilter) (c : CaseView) (hc : parseDate c.date = none)
    (l₁ l₂ : List CaseView) (mp : List (String × BucketAcc)) :
    chartFold f mp (l₁ ++ c :: l₂) = chartFold f mp (l₁ ++ l₂) := by
  unfold chartFold
  rw [List.foldl_append, List.foldl_append, List.foldl_cons, hc]

/-- `orderedInsert` inserts the new element somewhere in the list,
leaving the other elements in place. -/
theorem orderedInsert_decomp (r : CaseView → CaseView → Prop) [DecidableRel r] (a : CaseView) :
    ∀ l : List CaseView, ∃ l₁ l₂, List.orderedInsert r a l = l₁ ++ a :: l₂ ∧ l₁ ++ l₂ = l := by
  intro l
  induction l with
  | nil => exact ⟨[], [], rfl, rfl⟩
  | cons b l ih =>
    by_cases h : r a b
    · exact ⟨[], b :: l, by simp [List.orderedInsert, h], rfl⟩
    · obtain ⟨l₁, l₂, h1, h2⟩ := ih
      exact ⟨b :: l₁, l₂, by simp [List.orderedInsert, h, h1], by simp [h2]⟩

/-- Turning the bucket map into chart points preserves the billed
total. -/
theorem billedSum_ofMap (mp : List (String × BucketAcc)) :
    billedSum (mp.map fun kv => ChartPoint.mk kv.1 kv.2.billed kv.2.paid kv.2.dateForSort)
      = mapBilledSum mp := by
  unfold billedSum mapBilledSum
  rw [List.map_map]
  rfl

/-- Sorting chart points preserves the billed total. -/
theorem billedSum_insertionSort (r : ChartPoint → ChartPoint → Prop) [DecidableRel r]
    (l : List ChartPoint) : billedSum (List.insertionSort r l) = billedSum l := by
  unfold billedSum
  exact ((List.perm_insertionSort r l).map ChartPoint.billed).sum_eq

/-- Sorting cases preserves any mapped sum. -/
theorem mapSum_insertionSort (r : CaseView → CaseView → Prop) [DecidableRel r]
    (g : CaseView → Int) (l : List CaseView) :
    ((List.insertionSort r l).map g).sum = (l.map g).sum := by
  exact ((List.perm_insertionSort r l).map g).sum_eq

/-- The billed total of the emitted chart equals the sum of the bucket
contributions of the filtered cases. -/
theorem billedSum_chartData (f : TimeFilter) (now : Int) (cases : List CaseView) :
    billedSum (chartData f now cases) = ((filterCases f now cases).map bucketContrib).sum := by
  unfold chartData
  have hcore :
      billedSum (List.insertionSort bySortDate
        ((chartFold f [] (filteredCasesOf f now cases)).map
          fun kv => ChartPoint.mk kv.1 kv.2.billed kv.2.paid kv.2.dateForSort))
      = ((filterCases f now cases).map bucketContrib).sum := by
    rw [billedSum_insertionSort, billedSum_ofMap, chartFold_billedSum]
    rw [show mapBilledSum [] = 0 from rfl, zero_add]
    exact mapSum_insertionSort byDateDesc bucketContrib (filterCases f now cases)
  by_cases hw : f = TimeFilter.week
  · rw [if_pos hw, billedSum_insertionSort]
    exact hcore
  · rw [if_neg hw]
    by_cases hy : f = TimeFilter.year
    · rw [if_pos hy, billedSum_insertionSort]
      exact hcore
    · rw [if_neg hy]
      exact hcore

/-- Every case kept by a non-`all` window has a parseable date. -/
theorem filterCases_parseable (f : TimeFilter) (now : Int) (cases : List CaseView)
    (hf : f ≠ TimeFilter.all) (c : CaseView) (hc : c ∈ filterCases f now cases) :
    parseDate c.date ≠ none := by
  unfold filterCases at hc
  rw [if_neg hf] at hc
  have hp := (List.mem_filter.mp hc).2
  intro hnone
  rw [hnone] at hp
  cases hp

/-! ### Claim C2 -/

/-- A case whose date string parses nowhere. -/
def garbageCase : CaseView := ⟨"B3", "C3", "d3", "garbage", some 100, [], [], 0, 100⟩

/-- C2 counterexample: under the `all` window a case with an
unparseable date is counted in `Stats.totalBilled` but lands in no
bucket, so the bucket-sum equation of the claim fails. -/
theorem c2_counterexample :
    (statsOf TimeFilter.all 0 [garbageCase]).totalBilled = 100
    ∧ billedSum (chartData TimeFilter.all 0 [garbageCase]) = 0
    ∧ billedSum (chartData TimeFilter.all 0 [garbageCase])
        ≠ (statsOf TimeFilter.all 0 [garbageCase]).totalBilled := by
  exact ⟨by decide, by decide, by decide⟩

/-- C2 amended: `totalRemaining = totalBilled - totalPaymentsReceived`
holds for every window; `totalBilled` equals the sum of `bucket.billed`
for the Today/Week/Month/Year windows, whose filter removes every
unparseable-date case; in general (hence under `all`) the bucket sum
falls short of `totalBilled` by exactly the billed total of the
filtered cases whose dates do not parse. -/
theorem c2_aggregateConsistency (f : TimeFilter) (now : Int) (cases : List CaseView) :
    (statsOf f now cases).totalRemainingAmount
        = (statsOf f now cases).totalBilled - (statsOf f now cases).totalPaymentsReceived
    ∧ billedSum (chartData f now cases)
        = (statsOf f now cases).totalBilled - unparsedBilled (filterCases f now cases)
    ∧ (f ≠ TimeFilter.all →
        billedSum (chartData f now cases) = (statsOf f now cases).totalBilled) := by
  have hgen : billedSum (chartData f now cases)
      = (statsOf f now cases).totalBilled - unparsedBilled (filterCases f now cases) := by
    rw [billedSum_chartData]
    have hb : (statsOf f now cases).totalBilled = totalBilledOf (filterCases f now cases) := rfl
    rw [hb, totalBilledOf_eq_sum]
    have := sum_contrib_split (filterCases f now cases)
    omega
  refine ⟨rfl, hgen, ?_⟩
  intro hf
  rw [hgen]
  have hzero : unparsedBilled (filterCases f now cases) = 0 := by
    unfold unparsedBilled
    apply List.sum_eq_zero
    intro x hx
    obtain ⟨c, hc, hcx⟩ := List.mem_map.mp hx
    have hp := filterCases_parseable f now cases hf c hc
    unfold unparsedContrib at hcx
    cases hd : parseDate c.date with
    | none => exact absurd hd hp
    | some d => rw [hd] at hcx; exact hcx.symm
  omega

/-- A case billed 5500 with 2000 paid, dated inside June 2024. -/
def juneCase : CaseView := ⟨"B1", "C1", "d", "2024-06-10", some 5500, [], [], 2000, 3500⟩

/-- C2 witness: the bucket-sum equation evaluated for the year window
on a concrete case. -/
theorem c2_aggregateConsistency_witness :
    billedSum (chartData TimeFilter.year (daysFromCivil 2024 6 15) [juneCase])
        = (statsOf TimeFilter.year (daysFromCivil 2024 6 15) [juneCase]).totalBilled :=
  (c2_aggregateConsistency TimeFilter.year (daysFromCivil 2024 6 15) [juneCase]).2.2
    (by decide)

/-! ### Claim C4 -/

/-- C4: a case whose date fails to parse is excluded from every
Today/Week/Month/Year filtered result, still contributes its billed
amount to the `all`-window stats (where no filtering occurs), and never
contributes to any chart bucket in any window — the whole aggregation
being a total function, it cannot throw. -/
theorem c4_unparsedDateHandling (c : CaseView) (hc : parseDate c.date = none) :
    (∀ (f : TimeFilter) (now : Int) (cases : List CaseView),
        f ≠ TimeFilter.all → c ∉ filterCases f now cases)
    ∧ (∀ (now : Int) (cases : List CaseView), filterCases TimeFilter.all now cases = cases)
    ∧ (∀ (now : Int) (cases : List CaseView),
        (statsOf TimeFilter.all now (c :: cases)).totalBilled
          = c.totalAmount.getD 0 + (statsOf TimeFilter.all now cases).totalBilled)
    ∧ (∀ (f : TimeFilter) (now : Int) (cases : List CaseView),
        chartData f now (c :: cases) = chartData f now cases) := by
  have hall : ∀ (now : Int) (cases : List CaseView),
      filterCases TimeFilter.all now cases = cases := by
    intro now cases
    unfold filterCases
    rw [if_pos rfl]
  refine ⟨?_, hall, ?_, ?_⟩
  · intro f now cases hf hmem
    exact filterCases_parseable f now cases hf c hmem hc
  · intro now cases
    have hb : ∀ l, (statsOf TimeFilter.all now l).totalBilled = totalBilledOf l := by
      intro l
      show totalBilledOf (filterCases TimeFilter.all now l) = totalBilledOf l
      rw [hall]
    rw [hb, hb, totalBilledOf_eq_sum, totalBilledOf_eq_sum]
    simp
  · intro f now cases
    by_cases hf : f = TimeFilter.all
    · subst hf
      unfold chartData filteredCasesOf
      rw [hall, hall]
      have hsort : List.insertionSort byDateDesc (c :: cases)
          = List.orderedInsert byDateDesc c (List.insertionSort byDateDesc cases) := rfl
      obtain ⟨l₁, l₂, hdec, hrest⟩ :=
        orderedInsert_decomp byDateDesc c (List.insertionSort byDateDesc cases)
      rw [hsort, hdec, chartFold_skip TimeFilter.all c hc, hrest]
    · have hfl : filterCases f now (c :: cases) = filterCases f now cases := by
        unfold filterCases
        rw [if_neg hf, if_neg hf]
        simp [List.filter_cons, hc]
      unfold chartData filteredCasesOf
      rw [hfl]

/-- A case with an unparseable date used to instantiate C4. -/
def oopsCase : CaseView := ⟨"B4", "C4", "d4", "oops", some 77, [], [], 0, 77⟩

/-- C4 witness: the exclusion and bucket-skip behaviour evaluated on a
concrete unparseable-date case. -/
theorem c4_unparsedDateHandling_witness :
    (oopsCase ∉ filterCases TimeFilter.month 0 [oopsCase])
    ∧ (statsOf TimeFilter.all 0 [oopsCase]).totalBilled
        = oopsCase.totalAmount.getD 0 + (statsOf TimeFilter.all 0 []).totalBilled
    ∧ chartData TimeFilter.year 0 [oopsCase] = chartData TimeFilter.year 0 [] :=
  have h := c4_unparsedDateHandling oopsCase (by decide)
  ⟨h.1 TimeFilter.month 0 [oopsCase] (by decide), h.2.2.1 0 [], h.2.2.2 TimeFilter.year 0 []⟩

/-! ### Claim C7 -/

/-- A bucket update only introduces the supplied key. -/
theorem bumpBucket_keys (P : String → Prop) (k : String) (b p sd : Int) :
    ∀ mp : List (String × BucketAcc), (∀ kv ∈ mp, P kv.1) → P k →
      ∀ kv ∈ bumpBucket mp k b p sd, P kv.1 := by
  intro mp
  induction mp with
  | nil =>
    intro _ hk kv hkv
    simp only [bumpBucket, List.mem_singleton] at hkv
    rw [hkv]
    exact hk
  | cons kv2 rest ih =>
    intro hmp hk kv hkv
    obtain ⟨k2, v2⟩ := kv2
    by_cases h : k2 = k
    · simp only [bumpBucket, if_pos h, List.mem_cons] at hkv
      rcases hkv with h2 | h2
      · rw [h2]
        exact hmp (k2, v2) (List.mem_cons_self _ _)
      · exact hmp kv (List.mem_cons_of_mem _ h2)
    · simp only [bumpBucket, if_neg h, List.mem_cons] at hkv
      rcases hkv with h2 | h2
      · rw [h2]
        exact hmp (k2, v2) (List.mem_cons_self _ _)
      · exact ih (fun kv3 hkv3 => hmp kv3 (List.mem_cons_of_mem _ hkv3)) hk kv h2

/-- Every key of the accumulated bucket map is a bucket key of the
window (or was already in the initial map). -/
theorem chartFold_keys (f : TimeFilter) (P : String → Prop)
    (hkeys : ∀ d : Int, P (bucketKey f d)) :
    ∀ (cs : List CaseView) (mp : List (String × BucketAcc)), (∀ kv ∈ mp, P kv.1) →
      ∀ kv ∈ chartFold f mp cs, P kv.1 := by
  intro cs
  induction cs with
  | nil => intro mp hmp kv hkv; exact hmp kv hkv
  | cons c cs ih =>
    intro mp hmp kv hkv
    simp only [chartFold, List.foldl_cons] at hkv
    cases h : parseDate c.date with
    | none =>
      rw [h] at hkv
      dsimp only at hkv
      exact ih mp hmp kv hkv
    | some d =>
      rw [h] at hkv
      dsimp only at hkv
      exact ih _ (bumpBucket_keys P _ _ _ _ mp hmp (hkeys d)) kv hkv

/-- C7: for the Year window the emitted buckets are ordered by
`monthOrder` (Jan through Dec) whatever the input order, and every
bucket name is a month label; for the Week window they are ordered by
`dayOrder` (Mon through Sun) and every name is a day label. -/
theorem c7_chronologicalBuckets (now : Int) (cases : List CaseView) :
    List.Sorted byMonthOrder (chartData TimeFilter.year now cases)
    ∧ (∀ pt ∈ chartData TimeFilter.year now cases, ∃ m, pt.name = monthLabel m)
    ∧ List.Sorted byDayOrder (chartData TimeFilter.week now cases)
    ∧ (∀ pt ∈ chartData TimeFilter.week now cases, ∃ w, pt.name = dayLabel w) := by
  have hyear : chartData TimeFilter.year now cases
      = List.insertionSort byMonthOrder (List.insertionSort bySortDate
          ((chartFold TimeFilter.year [] (filteredCasesOf TimeFilter.year now cases)).map
            fun kv => ChartPoint.mk kv.1 kv.2.billed kv.2.paid kv.2.dateForSort)) := by
    unfold chartData
    rw [if_neg (by decide), if_pos rfl]
  have hweek : chartData TimeFilter.week now cases
      = List.insertionSort byDayOrder (List.insertionSort bySortDate
          ((chartFold TimeFilter.week [] (filteredCasesOf TimeFilter.week now cases)).map
            fun kv => ChartPoint.mk kv.1 kv.2.billed kv.2.paid kv.2.dateForSort)) := by
    unfold chartData
    rw [if_pos rfl]
  have hmemgen : ∀ (g : TimeFilter) (P : String → Prop), (∀ d : Int, P (bucketKey g d)) →
      ∀ pt ∈ (chartFold g [] (filteredCasesOf g now cases)).map
          (fun kv => ChartPoint.mk kv.1 kv.2.billed kv.2.paid kv.2.dateForSort),
        P pt.name := by
    intro g P hkeys pt hpt
    obtain ⟨kv, hkv, hpt2⟩ := List.mem_map.mp hpt
    have := chartFold_keys g P hkeys (filteredCasesOf g now cases) []
      (by intro kv2 hkv2; cases hkv2) kv hkv
    rw [← hpt2]
    exact this
  refine ⟨?_, ?_, ?_, ?_⟩
  · rw [hyear]
    exact List.sorted_insertionSort byMonthOrder _
  · intro pt hpt
    rw [hyear] at hpt
    have h1 := (List.perm_insertionSort byMonthOrder _).mem_iff.mp hpt
    have h2 := (List.perm_insertionSort bySortDate _).mem_iff.mp h1
    exact hmemgen TimeFilter.year (fun s => ∃ m, s = monthLabel m)
      (fun d => ⟨monthOf d, rfl⟩) pt h2
  · rw [hweek]
    exact List.sorted_insertionSort byDayOrder _
  · intro pt hpt
    rw [hweek] at hpt
    have h1 := (List.perm_insertionSort byDayOrder _).mem_iff.mp hpt
    have h2 := (List.perm_insertionSort bySortDate _).mem_iff.mp h1
    exact hmemgen TimeFilter.week (fun s => ∃ w, s = dayLabel w)
      (fun d => ⟨weekdayOf d, rfl⟩) pt h2

/-- A September 2024 case. -/
def sepCase : CaseView := ⟨"BA", "CA", "da", "2024-09-10", some 1000, [], [], 200, 800⟩

/-- A February 2024 case. -/
def febCase : CaseView := ⟨"BB", "CB", "db", "2024-02-05", some 2000, [], [], 0, 2000⟩

/-- C7 witness: with the September case listed before the February one,
the year chart still comes out sorted, concretely Feb before Sep. -/
theorem c7_chronologicalBuckets_witness :
    List.Sorted byMonthOrder
        (chartData TimeFilter.year (daysFromCivil 2024 6 15) [sepCase, febCase])
    ∧ (chartData TimeFilter.year (daysFromCivil 2024 6 15) [sepCase, febCase]).map
        ChartPoint.name = ["Feb", "Sep"] :=
  ⟨(c7_chronologicalBuckets (daysFromCivil 2024 6 15) [sepCase, febCase]).1, by decide⟩

end ZaLegal
